import Mathlib

/-!
Shallow embedding of the authful-mcp-proxy-rs core (OIDC client, PKCE,
token store, discovery, config-layer scope normalization, auth middleware)
together with theorems settling the specification claims.

Machine integers of the source are modelled as Nat with explicit saturation
or modular reduction where the Rust code truncates; fallible Rust functions
return Except/Option.
-/

namespace AuthfulProxy

/-- Error taxonomy of the program, mirroring `src/error.rs` (`ProxyError`).
Variants irrelevant to the claims are kept for completeness; payloads of
wrapped foreign errors are modelled as strings. -/
inductive ProxyError where
  | Config (msg : String)
  | Discovery (msg : String)
  | Token (msg : String)
  | Callback (msg : String)
  | Http (msg : String)
  | Middleware (msg : String)
  | Json (msg : String)
  | Io (msg : String)
  | UrlParse (msg : String)
  | Mcp (msg : String)
  | Timeout (msg : String)
  | Auth (msg : String)
  deriving DecidableEq, Repr

/-- Decidable equality for `Except`, used to evaluate results of the
modelled fallible operations at concrete inputs. -/
instance {e a : Type} [DecidableEq e] [DecidableEq a] :
    DecidableEq (Except e a) :=
  fun x y =>
    match x, y with
    | Except.error u, Except.error v =>
      if h : u = v then isTrue (by rw [h]) else isFalse (by simp [h])
    | Except.ok u, Except.ok v =>
      if h : u = v then isTrue (by rw [h]) else isFalse (by simp [h])
    | Except.error _, Except.ok _ => isFalse (by simp)
    | Except.ok _, Except.error _ => isFalse (by simp)

/-! ## TokenInfo (src/oidc/token.rs) -/

/-- Model of `TokenInfo` from `src/oidc/token.rs`. Timestamps are seconds
since the Unix epoch as in the source (`u64`, modelled as Nat). -/
structure TokenInfo where
  access_token : String
  refresh_token : Option String
  expires_in : Option Nat
  token_type : Option String
  scope : Option String
  expires_at : Option Nat
  deriving DecidableEq, Repr

/-- Constant `TOKEN_EXPIRY_BUFFER_SECS` from `src/oidc/token.rs`. -/
def TOKEN_EXPIRY_BUFFER_SECS : Nat := 60

/-- Model of `TokenInfo::is_valid` from `src/oidc/token.rs`. The source
reads the clock; here `now` is passed explicitly. Rust
`expires_at.saturating_sub(TOKEN_EXPIRY_BUFFER_SECS)` is Nat subtraction,
which saturates at zero exactly like `u64::saturating_sub`. -/
def TokenInfo.is_valid (t : TokenInfo) (now : Nat) : Bool :=
  if t.access_token.isEmpty then
    false
  else
    match t.expires_at with
    | some e => decide (now < e - TOKEN_EXPIRY_BUFFER_SECS)
    | none => true

/-- Model of `TokenInfo::can_refresh` from `src/oidc/token.rs`. -/
def TokenInfo.can_refresh (t : TokenInfo) : Bool :=
  t.refresh_token.isSome

/-! ## Issuer sanitization (src/oidc/token.rs, sanitize_issuer) -/

/-- Does `pre` occur at the beginning of `s`? Model of Rust
`str::starts_with` on character lists. -/
def beginsWith : List Char → List Char → Bool
  | [], _ => true
  | _ :: _, [] => false
  | a :: pre, b :: s => a = b && beginsWith pre s

/-- Strip every leading occurrence of `pre` from `s`, fuelled. Model of
Rust `str::trim_start_matches`, which removes the prefix repeatedly while
it matches (not just once). Fuel bounds the number of removals; the
wrapper passes the length of `s`, which suffices because each removal of a
non-empty prefix shortens the list. -/
def stripAllAux (pre : List Char) : Nat → List Char → List Char
  | 0, s => s
  | fuel + 1, s =>
    if pre ≠ [] ∧ beginsWith pre s then
      stripAllAux pre fuel (s.drop pre.length)
    else
      s

/-- Strip every leading occurrence of `pre` from `s`; model of Rust
`str::trim_start_matches pre` applied to `s`. -/
def trimStartMatches (pre s : String) : String :=
  ⟨stripAllAux pre.data s.data.length s.data⟩

/-- Replace every occurrence of the character `c` by `r`. Rust
`str::replace` performs substring replacement; for a single-character
pattern that is exactly a character map. -/
def replaceChar (c r : Char) (s : String) : String :=
  ⟨s.data.map (fun x => if x = c then r else x)⟩

/-- Model of `TokenInfo::sanitize_issuer` from `src/oidc/token.rs`:
`issuer_url.trim_start_matches("https://").trim_start_matches("http://")
.replace('/', "_").replace(':', "_")`. -/
def sanitize_issuer (issuer_url : String) : String :=
  replaceChar ':' '_'
    (replaceChar '/' '_'
      (trimStartMatches "http://" (trimStartMatches "https://" issuer_url)))

/-- Reference definition following the words of the original claim: strip
ONE leading occurrence of `http://` or `https://`, then replace every `/`
and `:` with `_`. Used to compare against the source function. -/
def specSanitizeOnce (issuer_url : String) : String :=
  let stripped : List Char :=
    if beginsWith "https://".data issuer_url.data then
      issuer_url.data.drop 8
    else if beginsWith "http://".data issuer_url.data then
      issuer_url.data.drop 7
    else
      issuer_url.data
  replaceChar ':' '_' (replaceChar '/' '_' ⟨stripped⟩)

/-! ## Scope normalization (src/config.rs) -/

/-- Constant `DEFAULT_SCOPES` from `src/config.rs`. -/
def DEFAULT_SCOPES : String := "openid profile email"

/-- Accumulator-based splitter: `acc` holds the characters of the current
token in reverse. Whitespace ends the current token (dropped when empty),
exactly as Rust `str::split_whitespace` yields only non-empty tokens. -/
def splitWsAux : List Char → List Char → List String
  | [], acc => if acc.isEmpty then [] else [⟨acc.reverse⟩]
  | c :: rest, acc =>
    if c.isWhitespace then
      (if acc.isEmpty then [] else [⟨acc.reverse⟩]) ++ splitWsAux rest []
    else
      splitWsAux rest (c :: acc)

/-- Model of Rust `str::split_whitespace`: split at whitespace and drop
empty pieces. Rust uses the Unicode White_Space property; the claims only
depend on the split-and-drop-empty structure, and the ASCII whitespace
recognized by `Char.isWhitespace` models it. -/
def splitWhitespace (s : String) : List String :=
  splitWsAux s.data []

/-- Scope normalization applied by `Config::scopes` in `src/config.rs` to
the scopes string: split on whitespace; if no resulting token equals
`openid`, insert `openid` at position 0. -/
def normalizeScopes (s : String) : List String :=
  let scopes := splitWhitespace s
  if ¬ scopes.contains "openid" then
    "openid" :: scopes
  else
    scopes

/-- Model of `Config::scopes` from `src/config.rs`: apply the
normalization to the configured scopes string, defaulting to
`DEFAULT_SCOPES` when none is configured. -/
def Config.scopes (oidc_scopes : Option String) : List String :=
  normalizeScopes (oidc_scopes.getD DEFAULT_SCOPES)

/-- Reference definition for the amended sanitization claim, stated by
well-founded recursion rather than fuel: strip every leading occurrence
of the pattern. -/
def stripAllSpec (pre s : List Char) : List Char :=
  if h : pre ≠ [] ∧ beginsWith pre s then
    stripAllSpec pre (s.drop pre.length)
  else
    s
termination_by s.length
decreasing_by
  have hle : pre.length ≤ s.length := by
    obtain ⟨hne, hb⟩ := h
    clear hne
    induction pre generalizing s with
    | nil => simp
    | cons a as ih =>
      cases s with
      | nil => simp [beginsWith] at hb
      | cons b bs =>
        simp only [beginsWith, Bool.and_eq_true] at hb
        have := ih bs hb.2
        simp only [List.length_cons]
        omega
  have hpos : 0 < pre.length := by
    cases pre with
    | nil => simp at h
    | cons a as => simp
  simp only [List.length_drop]
  omega

/-- Reference definition following the amended sanitization claim: strip
all leading occurrences of `https://`, then all leading occurrences of
`http://`, then replace every `/` and every `:` with `_`. -/
def specSanitizeAll (issuer_url : String) : String :=
  replaceChar ':' '_'
    (replaceChar '/' '_'
      ⟨stripAllSpec "http://".data (stripAllSpec "https://".data issuer_url.data)⟩)

/-! ## Discovery (src/oidc/discovery.rs) -/

/-- Model of the `OidcConfig` structure from `src/oidc/discovery.rs`. -/
structure OidcConfig where
  issuer : String
  authorization_endpoint : String
  token_endpoint : String
  userinfo_endpoint : Option String
  jwks_uri : Option String
  deriving DecidableEq, Repr

/-- Model of the HTTP response to the discovery GET: the status code and
the result of deserializing the body as an `OidcConfig` (none when the
body is not JSON or lacks a required field, exactly the cases in which
serde fails). -/
structure DiscoveryResponse where
  status : Nat
  body : Option OidcConfig
  deriving DecidableEq, Repr

/-- Model of reqwest `StatusCode::is_success`: 200 ≤ status ≤ 299. -/
def statusIsSuccess (status : Nat) : Bool :=
  decide (200 ≤ status) && decide (status < 300)

/-- Model of `OidcConfig::discover` from `src/oidc/discovery.rs`, with
the network I/O abstracted into the received `DiscoveryResponse`: fail
with `Discovery` when the status is not 2xx, when the body does not
deserialize, or when either required endpoint is empty; otherwise return
the parsed configuration. -/
def discover (resp : DiscoveryResponse) : Except ProxyError OidcConfig :=
  if ¬ statusIsSuccess resp.status then
    Except.error (ProxyError.Discovery
      ("OIDC discovery request failed with status: " ++ toString resp.status))
  else
    match resp.body with
    | none =>
      Except.error (ProxyError.Discovery "Failed to parse OIDC configuration")
    | some config =>
      if config.authorization_endpoint.isEmpty then
        Except.error (ProxyError.Discovery
          "OIDC configuration missing authorization_endpoint")
      else if config.token_endpoint.isEmpty then
        Except.error (ProxyError.Discovery
          "OIDC configuration missing token_endpoint")
      else
        Except.ok config

/-- Is the result a `Discovery` error? -/
def isDiscoveryErr (r : Except ProxyError OidcConfig) : Bool :=
  match r with
  | Except.error (ProxyError.Discovery _) => true
  | _ => false

/-- Necessary condition for a string to parse as an absolute URL: the
`url` crate accepts an input as absolute only when it begins with a
scheme terminated by `:`, so an absolute URL always contains a colon. -/
def containsColon (s : String) : Bool :=
  s.data.contains ':'

/-! ## Auth middleware (src/middleware.rs) -/

/-- Model of a reqwest request body: either buffered bytes (cloneable) or
a stream, for which `Request::try_clone` returns `None`. -/
inductive Body where
  | buffered (data : String)
  | stream
  deriving DecidableEq, Repr

/-- Model of a reqwest `Request`, restricted to the parts the middleware
touches: the `Authorization` header slot and the body. -/
structure Request where
  authorization : Option String
  body : Body
  deriving DecidableEq, Repr

/-- Model of reqwest `Request::try_clone`: `None` exactly when the body
is a stream, otherwise a clone of the request. -/
def Request.try_clone (r : Request) : Option Request :=
  match r.body with
  | Body.buffered _ => some r
  | Body.stream => none

/-- Model of an upstream `Response`, restricted to its status code. -/
structure Response where
  status : Nat
  deriving DecidableEq, Repr

/-- The visible characters accepted by `http::HeaderValue`: horizontal
tab, visible ASCII, or obs-text (0x80–0xFF); `format ... .parse()` in the
middleware fails exactly when the token produces other characters. -/
def headerValueOk (s : String) : Bool :=
  s.data.all fun c =>
    c.toNat = 9 || (32 ≤ c.toNat && c.toNat ≤ 126) ||
      (128 ≤ c.toNat && c.toNat ≤ 255)

/-- Set the `Authorization` header to `Bearer <token>`, as
`headers_mut().insert(AUTHORIZATION, ...)` does (insert replaces). -/
def setBearer (r : Request) (token : String) : Request :=
  { r with authorization := some ("Bearer " ++ token) }

/-- Outcome of one middleware invocation: a response, an error returned
to the caller, or a process panic (the `unwrap` on `try_clone`). -/
inductive MwOutcome where
  | ok (resp : Response)
  | err (e : ProxyError)
  | panicked
  deriving DecidableEq, Repr

/-- Environment of one `AuthMiddleware::handle` call: the results of the
OIDC client operations and the upstream (`next.run`), indexed by attempt
number (0 = first forward, 1 = retry) since the upstream may answer each
attempt differently. -/
structure MwEnv where
  get_token : Except ProxyError String
  renew_token : Except ProxyError String
  next : Nat → Request → Except ProxyError Response

/-- Model of `AuthMiddleware::handle` from `src/middleware.rs`, paired
with the number of upstream attempts performed. Mirrors the source: get
the token (errors become middleware errors), insert the bearer header
(invalid header values become middleware errors), send a clone of the
request (`try_clone().unwrap()` panics when the body is not cloneable);
on a 401 response renew the token, set the new bearer on the original
request and forward it exactly once more, returning that second response
verbatim; any other status is returned unchanged. -/
def handle (env : MwEnv) (req : Request) : MwOutcome × Nat :=
  match env.get_token with
  | Except.error e => (MwOutcome.err e, 0)
  | Except.ok token =>
    if ¬ headerValueOk ("Bearer " ++ token) then
      (MwOutcome.err (ProxyError.Middleware "Invalid token"), 0)
    else
      let req1 := setBearer req token
      match req1.try_clone with
      | none => (MwOutcome.panicked, 0)
      | some reqClone =>
        match env.next 0 reqClone with
        | Except.error e => (MwOutcome.err e, 1)
        | Except.ok response =>
          if response.status = 401 then
            match env.renew_token with
            | Except.error e => (MwOutcome.err e, 1)
            | Except.ok newToken =>
              if ¬ headerValueOk ("Bearer " ++ newToken) then
                (MwOutcome.err (ProxyError.Middleware "Invalid token"), 1)
              else
                let req2 := setBearer req1 newToken
                match env.next 1 req2 with
                | Except.error e => (MwOutcome.err e, 2)
                | Except.ok response2 => (MwOutcome.ok response2, 2)
          else
            (MwOutcome.ok response, 1)

/-! ## SHA-256 (the hash used by PkceParams::generate) -/

/-- Reduce to a 32-bit word, as every Rust u32 operation does. -/
def w32 (n : Nat) : Nat := n % 4294967296

/-- Right rotation of a 32-bit word. -/
def rotr (n x : Nat) : Nat := w32 ((x >>> n) ||| (x <<< (32 - n)))

/-- SHA-256 choice function; the 32-bit complement of `x` is
`x XOR 0xffffffff`. -/
def shaCh (x y z : Nat) : Nat := (x &&& y) ^^^ ((x ^^^ 4294967295) &&& z)

/-- SHA-256 majority function. -/
def shaMaj (x y z : Nat) : Nat := (x &&& y) ^^^ (x &&& z) ^^^ (y &&& z)

/-- SHA-256 big sigma 0. -/
def bigSigma0 (x : Nat) : Nat := rotr 2 x ^^^ rotr 13 x ^^^ rotr 22 x

/-- SHA-256 big sigma 1. -/
def bigSigma1 (x : Nat) : Nat := rotr 6 x ^^^ rotr 11 x ^^^ rotr 25 x

/-- SHA-256 small sigma 0. -/
def smallSigma0 (x : Nat) : Nat := rotr 7 x ^^^ rotr 18 x ^^^ (x >>> 3)

/-- SHA-256 small sigma 1. -/
def smallSigma1 (x : Nat) : Nat := rotr 17 x ^^^ rotr 19 x ^^^ (x >>> 10)

/-- The eight 32-bit words of the SHA-256 working state. -/
structure Hash8 where
  a : Nat
  b : Nat
  c : Nat
  d : Nat
  e : Nat
  f : Nat
  g : Nat
  h : Nat
  deriving DecidableEq, Repr

/-- The eight SHA-256 initial hash words of FIPS 180-4, in decimal. -/
def SHA_H0 : Hash8 :=
  ⟨1779033703, 3144134277, 1013904242, 2773480762,
   1359893119, 2600822924, 528734635, 1541459225⟩

/-- The 64 SHA-256 round constants of FIPS 180-4, in decimal. -/
def SHA_K : List Nat :=
  [1116352408, 1899447441, 3049323471, 3921009573,
   961987163, 1508970993, 2453635748, 2870763221,
   3624381080, 310598401, 607225278, 1426881987,
   1925078388, 2162078206, 2614888103, 3248222580,
   3835390401, 4022224774, 264347078, 604807628,
   770255983, 1249150122, 1555081692, 1996064986,
   2554220882, 2821834349, 2952996808, 3210313671,
   3336571891, 3584528711, 113926993, 338241895,
   666307205, 773529912, 1294757372, 1396182291,
   1695183700, 1986661051, 2177026350, 2456956037,
   2730485921, 2820302411, 3259730800, 3345764771,
   3516065817, 3600352804, 4094571909, 275423344,
   430227734, 506948616, 659060556, 883997877,
   958139571, 1322822218, 1537002063, 1747873779,
   1955562222, 2024104815, 2227730452, 2361852424,
   2428436474, 2756734187, 3204031479, 3329325298]

/-- One compression round on the working state with one `(k, w)` pair. -/
def shaRound (s : Hash8) (kw : Nat × Nat) : Hash8 :=
  let t1 := w32 (s.h + bigSigma1 s.e + shaCh s.e s.f s.g + kw.1 + kw.2)
  let t2 := w32 (bigSigma0 s.a + shaMaj s.a s.b s.c)
  ⟨w32 (t1 + t2), s.a, s.b, s.c, w32 (s.d + t1), s.e, s.f, s.g⟩

/-- Append the next word of the message schedule. -/
def schedStep (w : List Nat) : List Nat :=
  w ++ [w32 (smallSigma1 (w.getD (w.length - 2) 0) +
    w.getD (w.length - 7) 0 +
    smallSigma0 (w.getD (w.length - 15) 0) +
    w.getD (w.length - 16) 0)]

/-- Extend the 16 block words by `n` schedule words. -/
def sched : Nat → List Nat → List Nat
  | 0, w => w
  | n + 1, w => sched n (schedStep w)

/-- Big-endian packing of bytes into 32-bit words. -/
def toWords : List Nat → List Nat
  | b1 :: b2 :: b3 :: b4 :: rest =>
    (((b1 * 256 + b2) * 256 + b3) * 256 + b4) :: toWords rest
  | _ => []

/-- Compress one 64-byte block into the hash value. -/
def compress (hv : Hash8) (block : List Nat) : Hash8 :=
  let w := sched 48 (toWords block)
  let s := (SHA_K.zip w).foldl shaRound hv
  ⟨w32 (hv.a + s.a), w32 (hv.b + s.b), w32 (hv.c + s.c), w32 (hv.d + s.d),
   w32 (hv.e + s.e), w32 (hv.f + s.f), w32 (hv.g + s.g), w32 (hv.h + s.h)⟩

/-- Big-endian 8-byte encoding of the bit length. -/
def be64 (n : Nat) : List Nat :=
  [(n >>> 56) % 256, (n >>> 48) % 256, (n >>> 40) % 256, (n >>> 32) % 256,
   (n >>> 24) % 256, (n >>> 16) % 256, (n >>> 8) % 256, n % 256]

/-- SHA-256 padding: append `0x80`, zeros to 56 mod 64, then the
bit-length; the zero count `(119 - len % 64) % 64` is the unique `k < 64`
with `len + 1 + k ≡ 56 (mod 64)`. -/
def sha256pad (msg : List Nat) : List Nat :=
  msg ++ 128 :: (List.replicate ((119 - msg.length % 64) % 64) 0 ++
    be64 (msg.length * 8))

/-- Chop the padded message into 64-byte blocks, fuelled; the wrapper
passes the list's length, ample since each step consumes 64 bytes. -/
def blocksAux : Nat → List Nat → List (List Nat)
  | 0, _ => []
  | n + 1, l =>
    if l.isEmpty then [] else l.take 64 :: blocksAux n (l.drop 64)

/-- Serialize one 32-bit word as four big-endian bytes. -/
def w32ToBytes (w : Nat) : List Nat :=
  [(w >>> 24) % 256, (w >>> 16) % 256, (w >>> 8) % 256, w % 256]

/-- Serialize the final hash value as the 32-byte digest. -/
def digestBytes (s : Hash8) : List Nat :=
  w32ToBytes s.a ++ w32ToBytes s.b ++ w32ToBytes s.c ++ w32ToBytes s.d ++
    w32ToBytes s.e ++ w32ToBytes s.f ++ w32ToBytes s.g ++ w32ToBytes s.h

/-- SHA-256 of a byte sequence: pad, compress each block, serialize.
Model of the `sha2` crate's `Sha256` used by `PkceParams::generate`. -/
def sha256 (msg : List Nat) : List Nat :=
  digestBytes
    ((blocksAux (sha256pad msg).length (sha256pad msg)).foldl compress SHA_H0)

/-! ## PKCE (src/oidc/pkce.rs) -/

/-- The URL_SAFE_NO_PAD base64 alphabet of the `base64` crate. -/
def B64URL : List Char :=
  "ABCDEFGHIJKLMNOPQRSTUVWXYZabcdefghijklmnopqrstuvwxyz0123456789-_".data

/-- Character of the base64url alphabet at an index; the indices fed by
the encoder are always below 64, where the modulus is the identity. -/
def b64chr (n : Nat) : Char := B64URL.getD (n % 64) 'A'

/-- Unpadded base64url encoding of a byte sequence, by 3-byte groups:
model of `URL_SAFE_NO_PAD.encode`. -/
def b64encode : List Nat → List Char
  | [] => []
  | [b1] => [b64chr (b1 / 4), b64chr (b1 % 4 * 16)]
  | [b1, b2] =>
    [b64chr (b1 / 4), b64chr (b1 % 4 * 16 + b2 / 16), b64chr (b2 % 16 * 4)]
  | b1 :: b2 :: b3 :: rest =>
    b64chr (b1 / 4) :: b64chr (b1 % 4 * 16 + b2 / 16) ::
      b64chr (b2 % 16 * 4 + b3 / 64) :: b64chr (b3 % 64) :: b64encode rest

/-- The alphabet rand's `Alphanumeric` distribution samples from
(uniform over these 62 characters). -/
def ALPHANUMERIC : List Char :=
  "ABCDEFGHIJKLMNOPQRSTUVWXYZabcdefghijklmnopqrstuvwxyz0123456789".data

/-- One sample of rand's `Alphanumeric` distribution, driven by one draw
of the random source (uniform draws induce the uniform distribution on
the 62-character alphabet). -/
def alphanumericSample (r : Nat) : Char := ALPHANUMERIC.getD (r % 62) 'A'

/-- Model of the `PkceParams` structure from `src/oidc/pkce.rs`. -/
structure PkceParams where
  code_verifier : String
  code_challenge : String
  deriving DecidableEq, Repr

/-- Model of `PkceParams::generate` from `src/oidc/pkce.rs`,
parameterized by the random source `rng` (draw `i` yields the `i`-th
sampled character): take 64 alphanumeric characters as the verifier and
set the challenge to the unpadded base64url encoding of the SHA-256 hash
of the verifier's bytes (the verifier is ASCII, so its UTF-8 bytes are
its characters' code points). -/
def PkceParams.generate (rng : Nat → Nat) : PkceParams :=
  let code_verifier : List Char :=
    (List.range 64).map fun i => alphanumericSample (rng i)
  let code_challenge : List Char :=
    b64encode (sha256 (code_verifier.map Char.toNat))
  ⟨⟨code_verifier⟩, ⟨code_challenge⟩⟩

/-! ## Redirect URL parsing (model of the url crate) -/

/-- Parsed form of a hierarchical URL. `rawPort` is the explicit port
written in the URL text; the crate-visible `port` is derived below. -/
structure ParsedUrl where
  scheme : String
  host : String
  rawPort : Option Nat
  path : String
  deriving DecidableEq, Repr

/-- Default ports of the special schemes the proxy uses (url crate:
known default ports, 80 for http and 443 for https). -/
def defaultPortOf (scheme : String) : Option Nat :=
  if scheme = "http" then some 80
  else if scheme = "https" then some 443
  else none

/-- Model of `Url::port`: the url crate normalizes away a port equal to
the scheme's known default, so `port()` returns `None` both when the URL
text has no port and when its explicit port is the default. -/
def ParsedUrl.port (u : ParsedUrl) : Option Nat :=
  match u.rawPort with
  | some p => if defaultPortOf u.scheme = some p then none else some p
  | none => none

/-- Split a character list at the first `:`, dropping the separator. -/
def breakAtColon : List Char → Option (List Char × List Char)
  | [] => none
  | x :: xs =>
    if x = ':' then some ([], xs)
    else (breakAtColon xs).map (fun pr => (x :: pr.1, pr.2))

/-- Parse a decimal port; `none` on any non-digit character. -/
def digitsToNat (l : List Char) : Option Nat :=
  l.foldl
    (fun acc c =>
      match acc with
      | none => none
      | some n => if c.isDigit then some (n * 10 + (c.toNat - 48)) else none)
    (some 0)

/-- Minimal model of `Url::parse` for the hierarchical
`scheme://host[:port][/path][?query][#fragment]` URLs that redirect URLs
take: extract the scheme, host, optional explicit port (rejected when
non-numeric or ≥ 65536) and the path; the url crate serializes an empty
path of a special scheme as `/` and its `path()` never includes query or
fragment. Userinfo and percent-encoding are not modelled. -/
def parseUrl (s : String) : Option ParsedUrl :=
  match breakAtColon s.data with
  | none => none
  | some (schemeCs, rest) =>
    if schemeCs.isEmpty then
      none
    else
      match rest with
      | '/' :: '/' :: rest2 =>
        let authority := rest2.takeWhile fun c => ¬ (c = '/' ∨ c = '?' ∨ c = '#')
        let after := rest2.drop authority.length
        let pathCs := after.takeWhile fun c => ¬ (c = '?' ∨ c = '#')
        let path : List Char := if pathCs.isEmpty then ['/'] else pathCs
        match breakAtColon authority with
        | none =>
          if authority.isEmpty then
            none
          else
            some ⟨⟨schemeCs⟩, ⟨authority⟩, none, ⟨path⟩⟩
        | some (hostCs, portCs) =>
          if hostCs.isEmpty then
            none
          else if portCs.isEmpty then
            some ⟨⟨schemeCs⟩, ⟨hostCs⟩, none, ⟨path⟩⟩
          else
            match digitsToNat portCs with
            | none => none
            | some p =>
              if p < 65536 then
                some ⟨⟨schemeCs⟩, ⟨hostCs⟩, some p, ⟨path⟩⟩
              else
                none
      | _ => none

/-- The `(port, path)` passed to `run_callback_server` by
`OidcClient::perform_auth_flow`: `redirect_uri.port().unwrap_or(8080)`
and `redirect_uri.path()`. -/
def callbackArgs (redirect_url : String) : Option (Nat × String) :=
  (parseUrl redirect_url).map fun u => (u.port.getD 8080, u.path)

/-! ## Authorization flow (src/oidc/client.rs, perform_auth_flow) -/

/-- Model of `CallbackResult` from `src/oidc/callback.rs`. -/
structure CallbackResult where
  code : String
  state : String
  deriving DecidableEq, Repr

/-- State the flow can mutate: the in-memory cached bundle
(`OidcClient.token_info`) and the issuer's on-disk token cache. -/
structure FlowState where
  cache : Option TokenInfo
  disk : Option TokenInfo
  deriving DecidableEq, Repr

/-- Environment of one `perform_auth_flow` run: the generated `state`
parameter, the result of building the authorization URL (its
`Url::parse` can fail), the callback listener's outcome as a function of
the port and path it is bound to, and the token-endpoint code exchange
as a function of the authorization code (the PKCE verifier is fixed for
the run). -/
structure FlowEnv where
  sent_state : String
  build_url : Except ProxyError String
  callback : Nat → String → Except ProxyError CallbackResult
  exchange : String → Except ProxyError TokenInfo

/-- Model of `OidcClient::perform_auth_flow` from `src/oidc/client.rs`:
build the authorization URL (failures propagate), parse the redirect URL
to obtain the listener port (explicit port, else 8080) and path, run the
callback server, check the returned `state` against the sent one
(mismatch is the CSRF `Auth` error), exchange the code, then persist to
disk and cache the bundle and return its access token. The browser
launch is fire-and-forget and does not affect the result; file-system
failure of `save_to_disk` is not modelled. Returns the result, the state
afterwards, and whether the token exchange was invoked. -/
def perform_auth_flow (env : FlowEnv) (redirect_url : String)
    (st : FlowState) : Except ProxyError String × FlowState × Bool :=
  match env.build_url with
  | Except.error e => (Except.error e, st, false)
  | Except.ok _auth_url =>
    match callbackArgs redirect_url with
    | none =>
      (Except.error (ProxyError.UrlParse "relative URL without a base"),
        st, false)
    | some (port, path) =>
      match env.callback port path with
      | Except.error e => (Except.error e, st, false)
      | Except.ok callback_result =>
        if callback_result.state ≠ env.sent_state then
          (Except.error
            (ProxyError.Auth "State mismatch - possible CSRF attack"),
            st, false)
        else
          match env.exchange callback_result.code with
          | Except.error e => (Except.error e, st, false)
          | Except.ok tokens =>
            (Except.ok tokens.access_token, ⟨some tokens, some tokens⟩, true)

/-! ## Helper lemmas -/

theorem beginsWith_length_le {pre s : List Char} (h : beginsWith pre s = true) :
    pre.length ≤ s.length := by
  induction pre generalizing s with
  | nil => simp
  | cons a as ih =>
    cases s with
    | nil => simp [beginsWith] at h
    | cons b bs =>
      simp only [beginsWith, Bool.and_eq_true] at h
      have := ih h.2
      simp only [List.length_cons]
      omega

theorem stripAllAux_eq_spec (pre : List Char) (fuel : Nat) :
    ∀ s : List Char, s.length ≤ fuel → stripAllAux pre fuel s = stripAllSpec pre s := by
  induction fuel with
  | zero =>
    intro s hs
    have hnil : s = [] := by
      cases s with
      | nil => rfl
      | cons a as => simp at hs
    subst hnil
    rw [stripAllSpec]
    by_cases hp : pre ≠ [] ∧ beginsWith pre ([] : List Char) = true
    · obtain ⟨hne, hb⟩ := hp
      have := beginsWith_length_le hb
      have : pre = [] := by
        cases pre with
        | nil => rfl
        | cons a as => simp at this
      exact absurd this hne
    · rw [dif_neg hp]
      rfl
  | succ n ih =>
    intro s hs
    rw [stripAllSpec]
    by_cases hp : pre ≠ [] ∧ beginsWith pre s = true
    · rw [dif_pos hp]
      show stripAllAux pre (n + 1) s = _
      rw [stripAllAux, if_pos hp]
      apply ih
      have hle := beginsWith_length_le hp.2
      have hpos : 0 < pre.length := by
        cases pre with
        | nil => exact absurd rfl hp.1
        | cons a as => simp
      simp only [List.length_drop]
      omega
    · rw [dif_neg hp]
      show stripAllAux pre (n + 1) s = s
      rw [stripAllAux, if_neg hp]

theorem trimStartMatches_eq_spec (pre s : String) :
    trimStartMatches pre s = ⟨stripAllSpec pre.data s.data⟩ := by
  unfold trimStartMatches
  rw [stripAllAux_eq_spec pre.data s.data.length s.data (Nat.le_refl _)]

theorem mem_replaceChar {c r x : Char} {s : String}
    (hx : x ∈ (replaceChar c r s).data) : x = r ∨ (x ∈ s.data ∧ x ≠ c) := by
  simp only [replaceChar, List.mem_map] at hx
  obtain ⟨y, hy, hxy⟩ := hx
  by_cases h : y = c
  · subst h
    simp at hxy
    exact Or.inl hxy.symm
  · rw [if_neg h] at hxy
    subst hxy
    exact Or.inr ⟨hy, h⟩

theorem setBearer_body (r : Request) (t : String) :
    (setBearer r t).body = r.body := rfl

theorem try_clone_buffered {r : Request} {d : String}
    (h : r.body = Body.buffered d) : r.try_clone = some r := by
  unfold Request.try_clone
  rw [h]

theorem handle_attempts_le (env : MwEnv) (req : Request) :
    (handle env req).2 ≤ 2 := by
  unfold handle
  rcases env.get_token with e | token
  · simp
  · by_cases hv : headerValueOk ("Bearer " ++ token) = true
    · rcases hb : req.body with d | _
      · have hc : (setBearer req token).try_clone = some (setBearer req token) := by
          simp [Request.try_clone, setBearer, hb]
        simp only [hv, not_true_eq_false, Bool.false_eq_true, if_false, hc]
        rcases env.next 0 (setBearer req token) with e | resp
        · simp
        · by_cases hs : resp.status = 401
          · simp only [hs, if_true]
            rcases env.renew_token with e | t2
            · simp
            · by_cases hv2 : headerValueOk ("Bearer " ++ t2) = true
              · simp only [hv2, not_true_eq_false, Bool.false_eq_true, if_false]
                rcases env.next 1 (setBearer (setBearer req token) t2) with e | r2
                · simp
                · simp
              · simp [hv2]
          · simp [hs]
      · have hc : (setBearer req token).try_clone = none := by
          simp [Request.try_clone, setBearer, hb]
        simp [hv, hc]
    · simp [hv]

/-! ## Claim C7: discovery failure and success conditions -/

/-- Claim C7 counterexample: a 2xx discovery response whose endpoints are
`x/a` and `x/t` is accepted, although neither string contains a colon and
hence neither can parse as an absolute URL; the code never validates
absoluteness, only non-emptiness. -/
theorem discover_counterexample :
    discover ⟨200, some ⟨"x", "x/a", "x/t", none, none⟩⟩ =
      Except.ok ⟨"x", "x/a", "x/t", none, none⟩ ∧
    containsColon "x/a" = false ∧
    containsColon "x/t" = false := by
  decide

/-- Claim C7 as amended: `discover` fails with a `Discovery` error when
the HTTP status is not 2xx, when the body does not parse, or when a
required endpoint is missing or empty; on success the returned config is
the parsed body and its two required endpoints are non-empty. -/
theorem discover_spec (resp : DiscoveryResponse) :
    (statusIsSuccess resp.status = false → isDiscoveryErr (discover resp) = true) ∧
    (resp.body = none → isDiscoveryErr (discover resp) = true) ∧
    (∀ c, resp.body = some c →
      (c.authorization_endpoint = "" ∨ c.token_endpoint = "") →
        isDiscoveryErr (discover resp) = true) ∧
    (∀ c, discover resp = Except.ok c →
      c.authorization_endpoint ≠ "" ∧ c.token_endpoint ≠ "" ∧
        resp.body = some c ∧ statusIsSuccess resp.status = true) := by
  refine ⟨?_, ?_, ?_, ?_⟩
  · intro hs
    simp [discover, hs, isDiscoveryErr]
  · intro hb
    by_cases hs : statusIsSuccess resp.status = true
    · simp [discover, hb, hs, isDiscoveryErr]
    · simp [discover, hs, isDiscoveryErr]
  · intro c hb hor
    by_cases hs : statusIsSuccess resp.status = true
    · rcases hor with h | h
      · simp [discover, hb, hs, h, isDiscoveryErr, String.isEmpty_iff]
      · by_cases ha : c.authorization_endpoint = "" <;>
          simp [discover, hb, hs, h, ha, isDiscoveryErr, String.isEmpty_iff]
    · simp [discover, hs, isDiscoveryErr]
  · intro c hok
    by_cases hs : statusIsSuccess resp.status = true
    · cases hb : resp.body with
      | none => simp [discover, hs, hb] at hok
      | some c2 =>
        by_cases ha : c2.authorization_endpoint = ""
        · simp [discover, hs, hb, ha, String.isEmpty_iff] at hok
        · by_cases ht : c2.token_endpoint = ""
          · simp [discover, hs, hb, ha, ht, String.isEmpty_iff] at hok
          · simp [discover, hs, hb, ha, ht, String.isEmpty_iff] at hok
            subst hok
            exact ⟨ha, ht, rfl, hs⟩
    · simp [discover, hs] at hok

/-- Witness for C7 at a concrete rejected response (status 500). -/
theorem discover_spec_witness :
    (statusIsSuccess (500 : Nat) = false →
      isDiscoveryErr (discover ⟨500, none⟩) = true) ∧
    ((⟨500, none⟩ : DiscoveryResponse).body = none →
      isDiscoveryErr (discover ⟨500, none⟩) = true) ∧
    (∀ c, (⟨500, none⟩ : DiscoveryResponse).body = some c →
      (c.authorization_endpoint = "" ∨ c.token_endpoint = "") →
        isDiscoveryErr (discover ⟨500, none⟩) = true) ∧
    (∀ c, discover ⟨500, none⟩ = Except.ok c →
      c.authorization_endpoint ≠ "" ∧ c.token_endpoint ≠ "" ∧
        (⟨500, none⟩ : DiscoveryResponse).body = some c ∧
        statusIsSuccess (500 : Nat) = true) :=
  discover_spec ⟨500, none⟩

/-! ## Claim C1: bearer injection and single 401 retry -/

/-- Claim C1: when the token is obtained and the request is cloneable, a
non-401 first response is returned unchanged (independently of the
renewal behaviour), while a 401 first response triggers one renewal and
exactly one retry whose response — whatever its status — is returned
verbatim; the number of upstream attempts never exceeds two. -/
theorem handle_spec (env : MwEnv) (req : Request) (t d : String) (r1 : Response)
    (hg : env.get_token = Except.ok t)
    (hv : headerValueOk ("Bearer " ++ t) = true)
    (hb : req.body = Body.buffered d)
    (h1 : env.next 0 (setBearer req t) = Except.ok r1) :
    (r1.status ≠ 401 →
      ∀ rt, handle { env with renew_token := rt } req = (MwOutcome.ok r1, 1)) ∧
    (r1.status = 401 →
      (∀ e, env.renew_token = Except.error e →
        handle env req = (MwOutcome.err e, 1)) ∧
      (∀ t2, env.renew_token = Except.ok t2 →
        headerValueOk ("Bearer " ++ t2) = true →
          (∀ r2, env.next 1 (setBearer (setBearer req t) t2) = Except.ok r2 →
            handle env req = (MwOutcome.ok r2, 2)) ∧
          (∀ e, env.next 1 (setBearer (setBearer req t) t2) = Except.error e →
            handle env req = (MwOutcome.err e, 2)))) ∧
    (∀ envA reqA, (handle envA reqA).2 ≤ 2) := by
  have hclone : (setBearer req t).try_clone = some (setBearer req t) :=
    try_clone_buffered (d := d) (by rw [setBearer_body, hb])
  refine ⟨?_, ?_, handle_attempts_le⟩
  · intro hs rt
    unfold handle
    simp only [hg, hclone, h1]
    simp [hv, hs]
  · intro hs
    constructor
    · intro e he
      unfold handle
      simp only [hg, hclone, h1, he]
      simp [hv, hs]
    · intro t2 ht2 hv2
      constructor
      · intro r2 h2
        unfold handle
        simp only [hg, hclone, h1, ht2, h2]
        simp [hv, hs, hv2]
      · intro e h2
        unfold handle
        simp only [hg, hclone, h1, ht2, h2]
        simp [hv, hs, hv2]

/-- Witness for C1: upstream answers 401 then 200; the middleware renews
once, retries once, and completes with the 200 response after exactly two
attempts. -/
theorem handle_spec_witness :
    handle
      ⟨Except.ok "t", Except.ok "u",
        fun i _ => if i = 0 then Except.ok ⟨401⟩ else Except.ok ⟨200⟩⟩
      ⟨none, Body.buffered "b"⟩ = (MwOutcome.ok ⟨200⟩, 2) :=
  (((handle_spec
      ⟨Except.ok "t", Except.ok "u",
        fun i _ => if i = 0 then Except.ok ⟨401⟩ else Except.ok ⟨200⟩⟩
      ⟨none, Body.buffered "b"⟩ "t" "b" ⟨401⟩ rfl (by decide) rfl rfl).2.1
    rfl).2 "u" rfl (by decide)).1 ⟨200⟩ rfl

/-! ## Claim C8: body preservation and clone failure -/

/-- Claim C8 counterexample: for a request whose body is a stream the
clone fails and `try_clone().unwrap()` panics; the middleware does not
return an error to its caller at that input (and makes no upstream
attempt). -/
theorem clone_failure_counterexample :
    handle ⟨Except.ok "t", Except.ok "u", fun _ _ => Except.ok ⟨200⟩⟩
      ⟨none, Body.stream⟩ = (MwOutcome.panicked, 0) ∧
    ∀ e, (handle ⟨Except.ok "t", Except.ok "u", fun _ _ => Except.ok ⟨200⟩⟩
      ⟨none, Body.stream⟩).1 ≠ MwOutcome.err e := by
  have heq : handle ⟨Except.ok "t", Except.ok "u", fun _ _ => Except.ok ⟨200⟩⟩
      ⟨none, Body.stream⟩ = (MwOutcome.panicked, 0) := by decide
  refine ⟨heq, ?_⟩
  intro e h
  rw [heq] at h
  simp at h

/-- Claim C8 as amended: the retried request carries the body of the
original request (as does the clone sent on the first attempt), but a
request-clone failure makes the middleware panic via `unwrap` — it does
not return a middleware error. -/
theorem body_preserved_clone_panics (env : MwEnv) (req : Request)
    (t t2 : String) :
    (setBearer (setBearer req t) t2).body = req.body ∧
    (setBearer req t).body = req.body ∧
    (∀ r, req.try_clone = some r → r = req) ∧
    (env.get_token = Except.ok t → headerValueOk ("Bearer " ++ t) = true →
      req.body = Body.stream → handle env req = (MwOutcome.panicked, 0)) := by
  refine ⟨rfl, rfl, ?_, ?_⟩
  · intro r h
    unfold Request.try_clone at h
    cases hb : req.body with
    | buffered d =>
      rw [hb] at h
      cases h
      rfl
    | stream =>
      rw [hb] at h
      cases h
  · intro hg hv hb
    have hclone : (setBearer req t).try_clone = none := by
      unfold Request.try_clone
      rw [setBearer_body, hb]
    unfold handle
    simp only [hg, hclone]
    simp [hv]

/-- Witness for C8 at a concrete stream-bodied request. -/
theorem body_preserved_clone_panics_witness :
    ((setBearer (setBearer ⟨none, Body.stream⟩ "t") "u").body =
      (⟨none, Body.stream⟩ : Request).body) ∧
    ((setBearer ⟨none, Body.stream⟩ "t").body =
      (⟨none, Body.stream⟩ : Request).body) ∧
    (∀ r, (⟨none, Body.stream⟩ : Request).try_clone = some r →
      r = ⟨none, Body.stream⟩) ∧
    ((⟨Except.ok "t", Except.ok "u", fun _ _ => Except.ok ⟨200⟩⟩ :
        MwEnv).get_token = Except.ok "t" →
      headerValueOk ("Bearer " ++ "t") = true →
      (⟨none, Body.stream⟩ : Request).body = Body.stream →
      handle ⟨Except.ok "t", Except.ok "u", fun _ _ => Except.ok ⟨200⟩⟩
        ⟨none, Body.stream⟩ = (MwOutcome.panicked, 0)) :=
  body_preserved_clone_panics
    ⟨Except.ok "t", Except.ok "u", fun _ _ => Except.ok ⟨200⟩⟩
    ⟨none, Body.stream⟩ "t" "u"

theorem getD_mem_of_lt {l : List Char} {n : Nat} {d : Char}
    (h : n < l.length) : l.getD n d ∈ l := by
  rw [List.getD_eq_getElem?_getD, List.getElem?_eq_getElem h]
  simp only [Option.getD_some]
  exact List.getElem_mem h

theorem b64chr_mem (n : Nat) : b64chr n ∈ B64URL := by
  unfold b64chr
  exact getD_mem_of_lt (Nat.mod_lt _ (by decide))

theorem alphanumericSample_mem (r : Nat) :
    alphanumericSample r ∈ ALPHANUMERIC := by
  unfold alphanumericSample
  exact getD_mem_of_lt (Nat.mod_lt _ (by decide))

theorem b64encode_mem (l : List Nat) (c : Char) (hc : c ∈ b64encode l) :
    c ∈ B64URL := by
  induction l using b64encode.induct with
  | case1 => simp [b64encode] at hc
  | case2 b1 =>
    simp only [b64encode, List.mem_cons, List.not_mem_nil, or_false] at hc
    rcases hc with h | h <;> (subst h; exact b64chr_mem _)
  | case3 b1 b2 =>
    simp only [b64encode, List.mem_cons, List.not_mem_nil, or_false] at hc
    rcases hc with h | h | h <;> (subst h; exact b64chr_mem _)
  | case4 b1 b2 b3 rest ih =>
    simp only [b64encode, List.mem_cons] at hc
    rcases hc with h | h | h | h | h
    · subst h; exact b64chr_mem _
    · subst h; exact b64chr_mem _
    · subst h; exact b64chr_mem _
    · subst h; exact b64chr_mem _
    · exact ih h

theorem b64encode_length_mod2 (l : List Nat) (h : l.length % 3 = 2) :
    (b64encode l).length = 4 * (l.length / 3) + 3 := by
  induction l using b64encode.induct with
  | case1 => simp at h
  | case2 b1 => simp at h
  | case3 b1 b2 => simp [b64encode]
  | case4 b1 b2 b3 rest ih =>
    have h3 : rest.length % 3 = 2 := by
      simp only [List.length_cons] at h
      omega
    simp only [b64encode, List.length_cons, ih h3]
    omega

theorem digestBytes_length (s : Hash8) : (digestBytes s).length = 32 := by
  simp [digestBytes, w32ToBytes]

theorem sha256_length (msg : List Nat) : (sha256 msg).length = 32 :=
  digestBytes_length _

/-! ## Claim C4: PKCE generation -/

/-- Claim C4: every generated PKCE pair has a 64-character alphanumeric
verifier, and its challenge is the unpadded base64url encoding of the
SHA-256 hash of the verifier — exactly 43 characters from the url-safe
alphabet, containing no `=`, `+` or `/`. -/
theorem generate_spec (rng : Nat → Nat) :
    (PkceParams.generate rng).code_verifier.length = 64 ∧
    (∀ c ∈ (PkceParams.generate rng).code_verifier.data,
      c ∈ ALPHANUMERIC) ∧
    (PkceParams.generate rng).code_challenge =
      ⟨b64encode (sha256
        ((PkceParams.generate rng).code_verifier.data.map Char.toNat))⟩ ∧
    (PkceParams.generate rng).code_challenge.length = 43 ∧
    (∀ c ∈ (PkceParams.generate rng).code_challenge.data, c ∈ B64URL) ∧
    '=' ∉ (PkceParams.generate rng).code_challenge.data ∧
    '+' ∉ (PkceParams.generate rng).code_challenge.data ∧
    '/' ∉ (PkceParams.generate rng).code_challenge.data := by
  have hchal : (PkceParams.generate rng).code_challenge.data =
      b64encode (sha256
        ((PkceParams.generate rng).code_verifier.data.map Char.toNat)) := rfl
  refine ⟨?_, ?_, rfl, ?_, ?_, ?_, ?_, ?_⟩
  · show ((List.range 64).map
      fun i => alphanumericSample (rng i)).length = 64
    simp
  · intro c hc
    have hc2 : c ∈ (List.range 64).map fun i => alphanumericSample (rng i) :=
      hc
    simp only [List.mem_map] at hc2
    obtain ⟨i, _, hi⟩ := hc2
    subst hi
    exact alphanumericSample_mem _
  · show ((PkceParams.generate rng).code_challenge.data).length = 43
    rw [hchal, b64encode_length_mod2 _ (by rw [sha256_length]),
      sha256_length]
  · intro c hc
    rw [hchal] at hc
    exact b64encode_mem _ _ hc
  · intro hc
    rw [hchal] at hc
    have := b64encode_mem _ _ hc
    revert this
    decide
  · intro hc
    rw [hchal] at hc
    have := b64encode_mem _ _ hc
    revert this
    decide
  · intro hc
    rw [hchal] at hc
    have := b64encode_mem _ _ hc
    revert this
    decide

/-- Witness for C4 at a concrete random source. -/
theorem generate_spec_witness :
    (PkceParams.generate (fun i => i)).code_verifier.length = 64 ∧
    (∀ c ∈ (PkceParams.generate (fun i => i)).code_verifier.data,
      c ∈ ALPHANUMERIC) ∧
    (PkceParams.generate (fun i => i)).code_challenge =
      ⟨b64encode (sha256
        ((PkceParams.generate (fun i => i)).code_verifier.data.map
          Char.toNat))⟩ ∧
    (PkceParams.generate (fun i => i)).code_challenge.length = 43 ∧
    (∀ c ∈ (PkceParams.generate (fun i => i)).code_challenge.data,
      c ∈ B64URL) ∧
    '=' ∉ (PkceParams.generate (fun i => i)).code_challenge.data ∧
    '+' ∉ (PkceParams.generate (fun i => i)).code_challenge.data ∧
    '/' ∉ (PkceParams.generate (fun i => i)).code_challenge.data :=
  generate_spec (fun i => i)

set_option maxRecDepth 4096 in
/-- Known-answer test of the embedded hash and encoder: the RFC 7636
appendix B verifier maps to its published S256 challenge. -/
theorem pkce_known_vector :
    String.mk (b64encode (sha256
      ("dBjftJeZ4CVP-mB92K27uhbUJU1p1r_wW1gFWFOEjXk".data.map
        Char.toNat))) =
      "E9Melhoa2OwvFrEMTJguCHaoeK1t8URWbuGJSstw-cM" := by
  decide

/-! ## Claim C2: CSRF state mismatch -/

/-- Claim C2: whenever the callback delivers a state different from the
sent one, the full authorization flow returns exactly the
`Auth ("State mismatch - possible CSRF attack")` error (never a success),
the token exchange is not invoked, and neither the cached bundle nor the
on-disk cache changes. -/
theorem state_mismatch_no_persist (env : FlowEnv) (redirect_url : String)
    (st : FlowState) (cb : CallbackResult) (u : String) (port : Nat)
    (path : String)
    (hb : env.build_url = Except.ok u)
    (hargs : callbackArgs redirect_url = some (port, path))
    (hcb : env.callback port path = Except.ok cb)
    (hne : cb.state ≠ env.sent_state) :
    perform_auth_flow env redirect_url st =
      (Except.error (ProxyError.Auth "State mismatch - possible CSRF attack"),
        st, false) := by
  unfold perform_auth_flow
  simp only [hb, hargs, hcb]
  simp [hne]

/-- Witness for C2: the callback returns state `O` while `S` was sent;
the flow fails with the CSRF error, leaves the empty state unchanged,
and never calls the exchange. -/
theorem state_mismatch_no_persist_witness :
    perform_auth_flow
      ⟨"S", Except.ok "url", fun _ _ => Except.ok ⟨"c", "O"⟩,
        fun _ => Except.error (ProxyError.Token "unused")⟩
      "http://localhost:8080/auth/callback" ⟨none, none⟩ =
      (Except.error (ProxyError.Auth "State mismatch - possible CSRF attack"),
        ⟨none, none⟩, false) :=
  state_mismatch_no_persist
    ⟨"S", Except.ok "url", fun _ _ => Except.ok ⟨"c", "O"⟩,
      fun _ => Except.error (ProxyError.Token "unused")⟩
    "http://localhost:8080/auth/callback" ⟨none, none⟩ ⟨"c", "O"⟩ "url"
    8080 "/auth/callback" rfl (by decide) rfl (by decide)

/-! ## Claim C10: callback listener port and path -/

/-- Claim C10 counterexample: `http://localhost:80/auth/callback` has an
explicit port 80, yet the flow binds the listener on 8080: the url crate
normalizes an explicit default port away, so `port()` returns `None` and
`unwrap_or(8080)` applies. -/
theorem listener_port_counterexample :
    parseUrl "http://localhost:80/auth/callback" =
      some ⟨"http", "localhost", some 80, "/auth/callback"⟩ ∧
    callbackArgs "http://localhost:80/auth/callback" =
      some (8080, "/auth/callback") ∧
    (8080 : Nat) ≠ 80 := by
  decide

/-- Claim C10 as amended: the listener port is the redirect URL's
explicit port when present and different from the scheme's default, and
8080 when the port is absent or equal to the scheme's default (in
particular a URL with no port component binds 8080, not the scheme's
default port); the listened path is exactly the URL's path component. -/
theorem callback_port_path_spec (s : String) (u : ParsedUrl)
    (h : parseUrl s = some u) :
    (u.rawPort = none → callbackArgs s = some (8080, u.path)) ∧
    (∀ p, u.rawPort = some p → defaultPortOf u.scheme ≠ some p →
      callbackArgs s = some (p, u.path)) ∧
    (∀ p, u.rawPort = some p → defaultPortOf u.scheme = some p →
      callbackArgs s = some (8080, u.path)) := by
  refine ⟨?_, ?_, ?_⟩
  · intro hr
    simp [callbackArgs, h, ParsedUrl.port, hr]
  · intro p hr hne
    simp [callbackArgs, h, ParsedUrl.port, hr, hne]
  · intro p hr hd
    simp [callbackArgs, h, ParsedUrl.port, hr, hd]

/-- Witness for C10 at `http://localhost/auth/callback` (no explicit
port): the listener binds 8080 and path `/auth/callback`. -/
theorem callback_port_path_spec_witness :
    ((⟨"http", "localhost", none, "/auth/callback"⟩ : ParsedUrl).rawPort =
        none →
      callbackArgs "http://localhost/auth/callback" =
        some (8080,
          (⟨"http", "localhost", none, "/auth/callback"⟩ : ParsedUrl).path)) ∧
    (∀ p, (⟨"http", "localhost", none, "/auth/callback"⟩ :
        ParsedUrl).rawPort = some p →
      defaultPortOf "http" ≠ some p →
      callbackArgs "http://localhost/auth/callback" =
        some (p,
          (⟨"http", "localhost", none, "/auth/callback"⟩ : ParsedUrl).path)) ∧
    (∀ p, (⟨"http", "localhost", none, "/auth/callback"⟩ :
        ParsedUrl).rawPort = some p →
      defaultPortOf "http" = some p →
      callbackArgs "http://localhost/auth/callback" =
        some (8080,
          (⟨"http", "localhost", none, "/auth/callback"⟩ : ParsedUrl).path)) :=
  callback_port_path_spec "http://localhost/auth/callback"
    ⟨"http", "localhost", none, "/auth/callback"⟩ (by decide)

/-! ## Claim C3: validity arithmetic of TokenInfo -/

/-- Claim C3: for every token bundle and current time, `is_valid` holds
iff the access token is non-empty and either no expiry is set or the
current time is strictly below the expiry minus the 60-second buffer;
in particular validity implies a non-empty access token, and a set
expiry with `now ≥ expires_at − 60` forces invalidity. -/
theorem is_valid_characterization (t : TokenInfo) (now : Nat) :
    (t.is_valid now = true ↔
      t.access_token ≠ "" ∧
        (t.expires_at = none ∨
          ∃ e, t.expires_at = some e ∧ (now : ℤ) < (e : ℤ) - 60)) ∧
    (t.is_valid now = true → t.access_token ≠ "") ∧
    (∀ e, t.expires_at = some e → (e : ℤ) - 60 ≤ (now : ℤ) →
      t.is_valid now = false) := by
  have hiff : t.is_valid now = true ↔
      t.access_token ≠ "" ∧
        (t.expires_at = none ∨
          ∃ e, t.expires_at = some e ∧ (now : ℤ) < (e : ℤ) - 60) := by
    unfold TokenInfo.is_valid TOKEN_EXPIRY_BUFFER_SECS
    by_cases ha : t.access_token = ""
    · simp [ha, String.isEmpty_iff]
    · have ha2 : t.access_token.isEmpty = false := by
        rw [Bool.eq_false_iff]
        intro hcon
        exact ha ((String.isEmpty_iff _).mp hcon)
      cases hx : t.expires_at with
      | none => simp [ha2, ha]
      | some e =>
        simp only [ha2, Bool.false_eq_true, if_false, decide_eq_true_eq,
          ne_eq, ha, not_false_eq_true, true_and, reduceCtorEq, false_or]
        constructor
        · intro h
          exact ⟨e, rfl, by omega⟩
        · rintro ⟨e2, he2, hlt⟩
          cases he2
          omega
  refine ⟨hiff, fun h => (hiff.mp h).1, ?_⟩
  intro e he hle
  by_contra hv
  have ht : t.is_valid now = true := by
    cases hvv : t.is_valid now with
    | false => exact absurd hvv hv
    | true => rfl
  rcases (hiff.mp ht).2 with h0 | ⟨e2, he2, hlt⟩
  · rw [he] at h0
    cases h0
  · rw [he] at he2
    cases he2
    omega

/-- Witness for C3 at a concrete bundle: expiry 1000, current time 10. -/
theorem is_valid_characterization_witness :
    let t : TokenInfo :=
      ⟨"tok", none, none, none, none, some 1000⟩
    (t.is_valid 10 = true ↔
      t.access_token ≠ "" ∧
        (t.expires_at = none ∨
          ∃ e, t.expires_at = some e ∧ ((10 : Nat) : ℤ) < (e : ℤ) - 60)) ∧
    (t.is_valid 10 = true → t.access_token ≠ "") ∧
    (∀ e, t.expires_at = some e → (e : ℤ) - 60 ≤ ((10 : Nat) : ℤ) →
      t.is_valid 10 = false) :=
  is_valid_characterization ⟨"tok", none, none, none, none, some 1000⟩ 10

/-! ## Claim C9: saturating buffer subtraction -/

/-- Claim C9: a bundle whose expiry is set to at most 60 seconds since
the epoch is invalid at every current time, whatever the access token:
the buffer subtraction saturates at zero and no time is below zero. -/
theorem small_expiry_always_invalid (t : TokenInfo) (now e : Nat)
    (hx : t.expires_at = some e) (he : e ≤ 60) :
    t.is_valid now = false := by
  unfold TokenInfo.is_valid TOKEN_EXPIRY_BUFFER_SECS
  rw [hx]
  cases ha : t.access_token.isEmpty with
  | true => simp
  | false =>
    simp only [Bool.false_eq_true, if_false, decide_eq_false_iff_not, Nat.not_lt]
    omega

/-- Witness for C9: expiry exactly 60, non-empty access token, time 0. -/
theorem small_expiry_always_invalid_witness :
    (⟨"tok", none, none, none, none, some 60⟩ : TokenInfo).is_valid 0 = false :=
  small_expiry_always_invalid ⟨"tok", none, none, none, none, some 60⟩ 0 60 rfl
    (by decide)

/-! ## Claim C5: issuer sanitization -/

/-- Claim C5 counterexample: the source strips the scheme prefix
repeatedly (`trim_start_matches` removes every leading occurrence), so on
`http://http://x` it differs from the claimed strip-one-occurrence
reference definition. -/
theorem sanitize_issuer_counterexample :
    sanitize_issuer "http://http://x" = "x" ∧
    specSanitizeOnce "http://http://x" = "http___x" ∧
    sanitize_issuer "http://http://x" ≠ specSanitizeOnce "http://http://x" := by
  decide

/-- Claim C5 as amended: the sanitization strips ALL leading occurrences
of `https://`, then all leading occurrences of `http://`, then replaces
every `/` and `:` with `_`; consequently the output contains no `/` or
`:`, and equal inputs produce equal outputs. -/
theorem sanitize_issuer_spec (u : String) :
    sanitize_issuer u = specSanitizeAll u ∧
    '/' ∉ (sanitize_issuer u).data ∧
    ':' ∉ (sanitize_issuer u).data ∧
    ∀ v, u = v → sanitize_issuer u = sanitize_issuer v := by
  refine ⟨?_, ?_, ?_, ?_⟩
  · unfold sanitize_issuer specSanitizeAll
    rw [trimStartMatches_eq_spec, trimStartMatches_eq_spec]
  · intro hmem
    rcases mem_replaceChar hmem with h | ⟨h, _⟩
    · cases h
    · rcases mem_replaceChar h with h2 | ⟨_, h2⟩
      · cases h2
      · exact h2 rfl
  · intro hmem
    rcases mem_replaceChar hmem with h | ⟨_, h⟩
    · cases h
    · exact h rfl
  · intro v hv
    rw [hv]

/-! ## Claim C6: scope normalization -/

/-- Claim C6 counterexample: for the scopes string `openid openid` the
normalized list contains `openid` twice, not exactly once. -/
theorem scopes_counterexample :
    (Config.scopes (some "openid openid")).count "openid" = 2 ∧
    (Config.scopes (some "openid openid")).count "openid" ≠ 1 := by
  decide

/-- Claim C6 as amended: the normalized list contains `openid` at least
once — exactly once whenever `openid` occurs at most once among the
whitespace-separated tokens of the input — and it preserves the relative
order of all other scopes. -/
theorem normalizeScopes_spec (s : String) :
    "openid" ∈ normalizeScopes s ∧
    ((splitWhitespace s).count "openid" ≤ 1 →
      (normalizeScopes s).count "openid" = 1) ∧
    (normalizeScopes s).filter (fun t => t != "openid") =
      (splitWhitespace s).filter (fun t => t != "openid") := by
  have heq : normalizeScopes s =
      if ¬ (splitWhitespace s).contains "openid" then
        "openid" :: splitWhitespace s
      else
        splitWhitespace s := rfl
  by_cases hc : (splitWhitespace s).contains "openid" = true
  · rw [heq, if_neg (not_not_intro hc)]
    have hmem : "openid" ∈ splitWhitespace s := List.mem_of_elem_eq_true hc
    refine ⟨hmem, ?_, rfl⟩
    intro hle
    have := List.count_pos_iff.mpr hmem
    omega
  · rw [heq, if_pos hc]
    have hnmem : "openid" ∉ splitWhitespace s := by
      intro hmem
      exact hc (List.elem_eq_true_of_mem hmem)
    refine ⟨List.mem_cons_self _ _, ?_, ?_⟩
    · intro _
      rw [List.count_cons_self, List.count_eq_zero.mpr hnmem]
    · rw [List.filter_cons]
      simp

/-- Witness for C6 at the concrete scopes string `profile email`. -/
theorem normalizeScopes_spec_witness :
    "openid" ∈ normalizeScopes "profile email" ∧
    ((splitWhitespace "profile email").count "openid" ≤ 1 →
      (normalizeScopes "profile email").count "openid" = 1) ∧
    (normalizeScopes "profile email").filter (fun t => t != "openid") =
      (splitWhitespace "profile email").filter (fun t => t != "openid") :=
  normalizeScopes_spec "profile email"

end AuthfulProxy
